import Mathlib

/-
Shallow embedding of src/dcf77decoder.py (class decoder).

Conventions of the embedding:
* A raised Python ValueError is modelled as `Except.error` carrying a `DErr`
  constructor naming the message that the source formats into the exception.
* `decodeCdf` returns `Except.ok none` for the early return when the bit
  buffer does not hold exactly 59 bits, and `Except.ok (some record)` for the
  record the source prints on a successful decode.
* The mutable fields of the Python object (`sample_rate`, `start_level`,
  `decoded`, `network_buf`) become the structure `Dec`; methods become
  functions from the relevant fields to their updated values.
* `runlength_encode`'s `while True` loop is modelled with fuel
  `network_buf.length + 2`: after the first iteration every successful
  iteration strictly increases `pos`, and `pos < network_buf.length`, so that
  much fuel is never exhausted.  The run passed to each `handle_runlength`
  call is also recorded in a trace so that theorems can speak about the runs
  the segmenter emits.
* `.15*self.sample_rate` is modelled over `ℚ` as `(0.15 : ℚ) * sample_rate`;
  for the integer lengths and sample rates compared here the Python float
  comparison agrees with the exact rational one.
-/

namespace DCF77

/-- The ValueError messages the decoder can raise while decoding a frame:
"Parity error decoding minutes", "Parity error parsing hours",
"Parity error P3", "Could not parse timezone ...", "Invalid day: d",
"Invalid month: m". -/
inductive DErr where
  | parityMinutes : DErr
  | parityHours : DErr
  | parityDate : DErr
  | tzAmbiguous : DErr
  | invalidWeekday : Nat → DErr
  | invalidMonth : Nat → DErr
deriving DecidableEq

/-- The tuple printed by `decodeCdf` on a successful decode:
`(wd, d, M, y, h, m, 0, tz)`. -/
structure TimeRecord where
  wd : String
  day : Nat
  month : String
  year : Nat
  hour : Nat
  minute : Nat
  second : Nat
  tz : String
deriving DecidableEq

/-- `decoder.checkParity1`: `sum(decoded[21:28]) % 2 != decoded[28]` raises. -/
def checkParity1 (d : List Nat) : Except DErr Unit :=
  if ((d.drop 21).take 7).sum % 2 ≠ d.getD 28 0 then .error .parityMinutes
  else .ok ()

/-- `decoder.checkParity2`: `sum(decoded[29:35]) % 2 != decoded[35]` raises. -/
def checkParity2 (d : List Nat) : Except DErr Unit :=
  if ((d.drop 29).take 6).sum % 2 ≠ d.getD 35 0 then .error .parityHours
  else .ok ()

/-- `decoder.checkParity3`: `sum(decoded[36:58]) % 2 != decoded[58]` raises. -/
def checkParity3 (d : List Nat) : Except DErr Unit :=
  if ((d.drop 36).take 22).sum % 2 ≠ d.getD 58 0 then .error .parityDate
  else .ok ()

/-- `decoder.parseTz`: bit 17 truthy gives CEST, else bit 18 truthy gives
CET, else a ValueError is raised. -/
def parseTz (d : List Nat) : Except DErr String :=
  if d.getD 17 0 ≠ 0 then .ok "CEST"
  else if d.getD 18 0 ≠ 0 then .ok "CET"
  else .error .tzAmbiguous

/-- `decoder.parseMinutes`. -/
def parseMinutes (d : List Nat) : Nat :=
  d.getD 21 0 * 1 + d.getD 22 0 * 2 + d.getD 23 0 * 4 + d.getD 24 0 * 8 +
    d.getD 25 0 * 10 + d.getD 26 0 * 20 + d.getD 27 0 * 40

/-- `decoder.parseHours`. -/
def parseHours (d : List Nat) : Nat :=
  d.getD 29 0 * 1 + d.getD 30 0 * 2 + d.getD 31 0 * 4 + d.getD 32 0 * 8 +
    d.getD 33 0 * 10 + d.getD 34 0 * 20

/-- `decoder.parseDayOfMonth`. -/
def parseDayOfMonth (d : List Nat) : Nat :=
  d.getD 36 0 * 1 + d.getD 37 0 * 2 + d.getD 38 0 * 4 + d.getD 39 0 * 8 +
    d.getD 40 0 * 10 + d.getD 41 0 * 20

/-- `decoder.parseDayOfWeek`: weighted sum of bits 42..44, must lie in
`[1,7]`, then indexes `["Mon",...,"Sun"]`. -/
def parseDayOfWeek (d : List Nat) : Except DErr String :=
  let day := d.getD 42 0 * 1 + d.getD 43 0 * 2 + d.getD 44 0 * 4
  if day < 1 ∨ day > 7 then .error (.invalidWeekday day)
  else .ok (["Mon", "Tue", "Wed", "Thu", "Fri", "Sat", "Sun"].getD (day - 1) "")

/-- `decoder.parseMonth`: weighted sum of bits 45..49, must lie in `[1,12]`,
then indexes the month-name list. -/
def parseMonth (d : List Nat) : Except DErr String :=
  let month := d.getD 45 0 * 1 + d.getD 46 0 * 2 + d.getD 47 0 * 4 +
    d.getD 48 0 * 8 + d.getD 49 0 * 10
  if month < 1 ∨ month > 12 then .error (.invalidMonth month)
  else .ok (["Jan", "Feb", "Mar", "Apr", "May", "Jun",
    "Jul", "Aug", "Sep", "Oct", "Nov", "Dec"].getD (month - 1) "")

/-- `decoder.parseYear`: weighted sum of bits 50..57 plus 2000. -/
def parseYear (d : List Nat) : Nat :=
  d.getD 50 0 * 1 + d.getD 51 0 * 2 + d.getD 52 0 * 4 + d.getD 53 0 * 8 +
    d.getD 54 0 * 10 + d.getD 55 0 * 20 + d.getD 56 0 * 40 +
    d.getD 57 0 * 80 + 2000

/-- `decoder.decodeCdf`: early return (`ok none`) unless the buffer holds
exactly 59 bits; otherwise the three parity checks, then the field parses,
in the source order, each raise aborting the rest; on success the printed
record is returned. -/
def decodeCdf (d : List Nat) : Except DErr (Option TimeRecord) :=
  if d.length ≠ 59 then .ok none
  else
    match checkParity1 d with
    | .error e => .error e
    | .ok _ =>
      match checkParity2 d with
      | .error e => .error e
      | .ok _ =>
        match checkParity3 d with
        | .error e => .error e
        | .ok _ =>
          match parseTz d with
          | .error e => .error e
          | .ok tz =>
            let m := parseMinutes d
            let h := parseHours d
            let day := parseDayOfMonth d
            match parseDayOfWeek d with
            | .error e => .error e
            | .ok wd =>
              match parseMonth d with
              | .error e => .error e
              | .ok M =>
                let y := parseYear d
                .ok (some ⟨wd, day, M, y, h, m, 0, tz⟩)

/-- `decoder.handle_runlength` acting on the `decoded` buffer: a `1`-run
longer than `sample_rate` clears it, a `0`-run appends the classified bit,
then `decodeCdf` runs (its raise propagates; the buffer mutation persists).
Returns the new buffer together with the `decodeCdf` outcome. -/
def handle_runlength (sample_rate : Nat) (decoded : List Nat)
    (value length : Nat) : List Nat × Except DErr (Option TimeRecord) :=
  let d1 := if value = 1 ∧ length > sample_rate then [] else decoded
  let d2 := if value = 0 then
      d1 ++ [if (length : ℚ) > (0.15 : ℚ) * (sample_rate : ℚ) then 1 else 0]
    else d1
  (d2, decodeCdf d2)

/-- The mutable state of a `decoder` instance. -/
structure Dec where
  sample_rate : Nat
  start_level : Nat
  decoded : List Nat
  network_buf : List Nat
deriving DecidableEq

/-- Helper for Python `list.index`: first index (offset by `i`) of `x`. -/
def pyIndexAux (x : Nat) : List Nat → Nat → Option Nat
  | [], _ => none
  | a :: l, i => if a = x then some i else pyIndexAux x l (i + 1)

/-- Python `buf.index(x, start)`: absolute index of the first occurrence of
`x` at or after `start`, or `none` for the raised ValueError. -/
def pyIndex (l : List Nat) (x : Nat) (start : Nat) : Option Nat :=
  match pyIndexAux x (l.drop start) 0 with
  | none => none
  | some i => some (start + i)

/-- The `while True` loop of `decoder.runlength_encode`, with fuel.  A failed
`index` lookup (ValueError) returns `toRemove`; a ValueError raised inside
`handle_runlength` (a decode failure) is caught by the same `except` clause
and also returns `toRemove`, skipping the `start_level`/`start_pos`/
`toRemove` updates while keeping the mutated `decoded` buffer.  The third
component records the `(value, length)` run of each `handle_runlength`
call. -/
def rle_loop : Nat → Dec → Nat → Nat → List (Nat × Nat) →
    Nat × Dec × List (Nat × Nat)
  | 0, s, _, toRemove, runs => (toRemove, s, runs)
  | fuel + 1, s, start_pos, toRemove, runs =>
    let value := if s.start_level = 1 then 0 else 1
    match pyIndex s.network_buf s.start_level start_pos with
    | none => (toRemove, s, runs)
    | some pos =>
      match handle_runlength s.sample_rate s.decoded value (pos - start_pos) with
      | (d2, .error _) =>
        (toRemove, { s with decoded := d2 }, runs ++ [(value, pos - start_pos)])
      | (d2, .ok _) =>
        rle_loop fuel { s with decoded := d2, start_level := value } pos
          (toRemove + pos) (runs ++ [(value, pos - start_pos)])

/-- `decoder.runlength_encode(buf)`.  The source never reads its `buf`
parameter: the body works on `self.network_buf` and `self.start_level`
throughout.  Returns `(toRemove, new state, emitted run trace)`. -/
def runlength_encode (s : Dec) (buf : List Nat) : Nat × Dec × List (Nat × Nat) :=
  rle_loop (s.network_buf.length + 2) s 0 0 []

/-- One iteration of the `while True` body of `decoder.listen`: append the
newly received samples to `network_buf`, run `runlength_encode` (passing
`self.network_buf` as the argument, as the source does), then drop the
reported consumed count.  The emitted run trace is returned alongside. -/
def listen_step (s : Dec) (newbytes : List Nat) : Dec × List (Nat × Nat) :=
  let s1 := { s with network_buf := s.network_buf ++ newbytes }
  match runlength_encode s1 s1.network_buf with
  | (consumed, s2, runs) =>
    ({ s2 with network_buf := s2.network_buf.drop consumed }, runs)

/-- The 59-bit test frame left in a comment in `decoder.__init__`. -/
def refFrame : List Nat :=
  [0, 0, 0, 0, 1, 1, 1, 0, 0, 0,
   1, 0, 1, 1, 1, 0, 0, 1, 0, 0,
   1, 1, 1, 0, 0, 0, 0, 1, 1, 0,
   0, 0, 0, 0, 0, 0, 1, 0, 0, 1,
   0, 1, 0, 1, 0, 1, 0, 0, 1, 0,
   0, 0, 0, 0, 0, 1, 0, 0, 1]

/-- The record `refFrame` decodes to. -/
def refRecord : TimeRecord :=
  ⟨"Tue", 29, "Sep", 2020, 0, 43, 0, "CEST"⟩

/-- `refFrame` with bit 18 (the CET flag) also set, so that bits 17 and 18
are both 1; neither bit is covered by a parity group. -/
def bothTzFrame : List Nat := refFrame.set 18 1

/-- `refFrame` with bits 23, 24, 25, 26 also set: the minute field becomes
`1+2+4+8+10+20+40 = 85` while the parity sum stays odd, matching bit 28. -/
def minute85Frame : List Nat :=
  (((refFrame.set 23 1).set 24 1).set 25 1).set 26 1

/-- `refFrame` with bit 28 (the minute parity bit) flipped to 0. -/
def badParityFrame : List Nat := refFrame.set 28 0

/-- The record `minute85Frame` decodes to: its minute field is 85. -/
def minute85Record : TimeRecord :=
  ⟨"Tue", 29, "Sep", 2020, 0, 85, 0, "CEST"⟩

/-- Sum view of `Except`, used to derive decidable equality. -/
def exceptToSum {ε α : Type} : Except ε α → ε ⊕ α
  | .error e => .inl e
  | .ok a => .inr a

instance {ε α : Type} [DecidableEq ε] [DecidableEq α] :
    DecidableEq (Except ε α) := fun a b =>
  decidable_of_iff (exceptToSum a = exceptToSum b)
    (by cases a <;> cases b <;> simp [exceptToSum])

/-
Helper lemmas.
-/

/-- The float threshold test of the bit classifier, over exact rationals,
as an integer comparison. -/
theorem rat_threshold (sr len : Nat) :
    ((len : ℚ) > (0.15 : ℚ) * (sr : ℚ)) ↔ 3 * sr < 20 * len := by
  rw [gt_iff_lt, show (0.15 : ℚ) = 3 / 20 by norm_num, div_mul_eq_mul_div,
    div_lt_iff₀ (by norm_num : (0 : ℚ) < 20), mul_comm (len : ℚ) 20]
  exact_mod_cast Iff.rfl

/-- `checkParity2` only ever raises the hours parity error. -/
theorem checkParity2_error_val {d : List Nat} {e : DErr}
    (h : checkParity2 d = .error e) : e = .parityHours := by
  unfold checkParity2 at h
  split at h <;> simp_all

/-- `checkParity3` only ever raises the date parity error. -/
theorem checkParity3_error_val {d : List Nat} {e : DErr}
    (h : checkParity3 d = .error e) : e = .parityDate := by
  unfold checkParity3 at h
  split at h <;> simp_all

/-- `parseTz` only ever raises the ambiguous-timezone error. -/
theorem parseTz_error_val {d : List Nat} {e : DErr}
    (h : parseTz d = .error e) : e = .tzAmbiguous := by
  unfold parseTz at h
  split at h
  · simp_all
  · split at h <;> simp_all

/-- `parseDayOfWeek` only ever raises an invalid-weekday error. -/
theorem parseDayOfWeek_error_val {d : List Nat} {e : DErr}
    (h : parseDayOfWeek d = .error e) : ∃ n, e = .invalidWeekday n := by
  simp only [parseDayOfWeek] at h
  split at h
  · simp only [Except.error.injEq] at h
    exact ⟨_, h.symm⟩
  · simp at h

/-- `parseMonth` only ever raises an invalid-month error. -/
theorem parseMonth_error_val {d : List Nat} {e : DErr}
    (h : parseMonth d = .error e) : ∃ n, e = .invalidMonth n := by
  simp only [parseMonth] at h
  split at h
  · simp only [Except.error.injEq] at h
    exact ⟨_, h.symm⟩
  · simp at h

/-- A frame whose first parity check passes can never produce the minutes
parity error from `decodeCdf`. -/
theorem decodeCdf_no_pm {d : List Nat} (h59 : d.length = 59)
    (hp1 : checkParity1 d = .ok ()) :
    decodeCdf d ≠ .error .parityMinutes := by
  unfold decodeCdf
  rw [if_neg (by simp [h59])]
  simp only [hp1]
  rcases hp2 : checkParity2 d with e | u
  · obtain rfl := checkParity2_error_val hp2
    simp
  rcases hp3 : checkParity3 d with e | u
  · obtain rfl := checkParity3_error_val hp3
    simp
  rcases htz : parseTz d with e | tz
  · obtain rfl := parseTz_error_val htz
    simp
  rcases hwd : parseDayOfWeek d with e | wd
  · obtain ⟨n, rfl⟩ := parseDayOfWeek_error_val hwd
    simp
  rcases hM : parseMonth d with e | M
  · obtain ⟨n, rfl⟩ := parseMonth_error_val hM
    simp
  simp

/-- A failing first parity check makes `decodeCdf` raise exactly that
error. -/
theorem decodeCdf_p1_err {d : List Nat} (h59 : d.length = 59) {e : DErr}
    (hp1 : checkParity1 d = .error e) : decodeCdf d = .error e := by
  unfold decodeCdf
  rw [if_neg (by simp [h59])]
  simp only [hp1]

/-- Inversion: a successful decode is exactly the record built from the
parse functions. -/
theorem decodeCdf_ok_some {d : List Nat} {r : TimeRecord}
    (h : decodeCdf d = .ok (some r)) :
    ∃ tz wd M, parseTz d = .ok tz ∧ parseDayOfWeek d = .ok wd ∧
      parseMonth d = .ok M ∧
      r = ⟨wd, parseDayOfMonth d, M, parseYear d, parseHours d,
        parseMinutes d, 0, tz⟩ := by
  unfold decodeCdf at h
  split at h
  · simp at h
  rcases hp1 : checkParity1 d with e | u
  · simp [hp1] at h
  rcases hp2 : checkParity2 d with e | u2
  · simp [hp1, hp2] at h
  rcases hp3 : checkParity3 d with e | u3
  · simp [hp1, hp2, hp3] at h
  rcases htz : parseTz d with e | tz
  · simp [hp1, hp2, hp3, htz] at h
  rcases hwd : parseDayOfWeek d with e | wd
  · simp [hp1, hp2, hp3, htz, hwd] at h
  rcases hM : parseMonth d with e | M
  · simp [hp1, hp2, hp3, htz, hwd, hM] at h
  simp only [hp1, hp2, hp3, htz, hwd, hM, Except.ok.injEq,
    Option.some.injEq] at h
  exact ⟨tz, wd, M, rfl, rfl, rfl, h.symm⟩

/-- Setting an entry at or beyond the window `[s, s+t)` does not change the
`drop s / take t` slice. -/
theorem take_drop_set_of_le (l : List Nat) (i a s t : Nat) (h : s + t ≤ i) :
    ((l.set i a).drop s).take t = (l.drop s).take t := by
  apply List.ext_getElem?
  intro n
  simp only [List.getElem?_take, List.getElem?_drop, List.getElem?_set]
  split
  · rw [if_neg (by omega)]
  · rfl

/-- `getD` at an in-range overwritten index returns the written value. -/
theorem getD_set_self (l : List Nat) (i a : Nat) (h : i < l.length) :
    (l.set i a).getD i 0 = a := by
  rw [List.getD_eq_getElem _ _ (by rw [List.length_set]; exact h),
    List.getElem_set]
  simp

/-- Every `getD` lookup of a 0/1 list is at most 1. -/
theorem getD_le_one {l : List Nat} (hb : ∀ b ∈ l, b ≤ 1) (i : Nat) :
    l.getD i 0 ≤ 1 := by
  rcases Nat.lt_or_ge i l.length with hlt | hge
  · rw [List.getD_eq_getElem l 0 hlt]
    exact hb _ (List.getElem_mem hlt)
  · rw [List.getD_eq_default l 0 hge]
    exact Nat.zero_le 1

/-- `decodeCdf` takes the not-ready early return exactly on lengths other
than 59: at length 59 it always either raises or yields a record. -/
theorem decodeCdf_ne_ok_none (d : List Nat) :
    decodeCdf d ≠ .ok none ↔ d.length = 59 := by
  unfold decodeCdf
  by_cases h : d.length = 59
  · rw [if_neg (by simp [h])]
    simp only [h, iff_true]
    rcases hp1 : checkParity1 d with e | u
    · simp
    rcases hp2 : checkParity2 d with e | u2
    · simp
    rcases hp3 : checkParity3 d with e | u3
    · simp
    rcases htz : parseTz d with e | tz
    · simp
    rcases hwd : parseDayOfWeek d with e | wd
    · simp
    rcases hM : parseMonth d with e | M
    · simp
    simp
  · rw [if_pos (by simp [h])]
    simp [h]

/-- Searching a constant list for a different value fails at every start
offset. -/
theorem pyIndexAux_replicate_ne (x v : Nat) (h : x ≠ v) :
    ∀ n i, pyIndexAux x (List.replicate n v) i = none := by
  intro n
  induction n with
  | zero => intro i; rfl
  | succ m ih =>
    intro i
    simp only [List.replicate_succ, pyIndexAux, if_neg (Ne.symm h)]
    exact ih (i + 1)

/-- `pyIndex` on a uniform buffer of the opposite value raises. -/
theorem pyIndex_replicate_ne (n v x : Nat) (h : x ≠ v) :
    pyIndex (List.replicate n v) x 0 = none := by
  unfold pyIndex
  rw [List.drop_zero, pyIndexAux_replicate_ne x v h]

/-- `pyIndex` on a non-empty uniform buffer of the searched value finds
index 0. -/
theorem pyIndex_replicate_self (n v : Nat) (h : n ≠ 0) :
    pyIndex (List.replicate n v) v 0 = some 0 := by
  obtain ⟨m, rfl⟩ : ∃ m, n = m + 1 := ⟨n - 1, by omega⟩
  unfold pyIndex
  rw [List.drop_zero, List.replicate_succ]
  simp [pyIndexAux]

/-- One unfolding of the segmentation loop. -/
theorem rle_loop_succ (fuel : Nat) (s : Dec) (start_pos toRemove : Nat)
    (runs : List (Nat × Nat)) :
    rle_loop (fuel + 1) s start_pos toRemove runs =
      match pyIndex s.network_buf s.start_level start_pos with
      | none => (toRemove, s, runs)
      | some pos =>
        match handle_runlength s.sample_rate s.decoded
            (if s.start_level = 1 then 0 else 1) (pos - start_pos) with
        | (d2, .error _) =>
          (toRemove, { s with decoded := d2 },
            runs ++ [((if s.start_level = 1 then 0 else 1), pos - start_pos)])
        | (d2, .ok _) =>
          rle_loop fuel
            { s with decoded := d2, start_level := (if s.start_level = 1 then 0 else 1) }
            pos (toRemove + pos)
            (runs ++ [((if s.start_level = 1 then 0 else 1), pos - start_pos)]) :=
  rfl

/-- Index 1..7 into the weekday-name list lands in the list. -/
theorem mem_day_names (n : Nat) (h1 : 1 ≤ n) (h7 : n ≤ 7) :
    (["Mon", "Tue", "Wed", "Thu", "Fri", "Sat", "Sun"].getD (n - 1) "") ∈
      ["Mon", "Tue", "Wed", "Thu", "Fri", "Sat", "Sun"] := by
  interval_cases n <;> simp

/-- Index 1..12 into the month-name list lands in the list. -/
theorem mem_month_names (n : Nat) (h1 : 1 ≤ n) (h12 : n ≤ 12) :
    (["Jan", "Feb", "Mar", "Apr", "May", "Jun",
      "Jul", "Aug", "Sep", "Oct", "Nov", "Dec"].getD (n - 1) "") ∈
      ["Jan", "Feb", "Mar", "Apr", "May", "Jun",
        "Jul", "Aug", "Sep", "Oct", "Nov", "Dec"] := by
  interval_cases n <;> simp

/-
Claim theorems.
-/

/-- C1: a decode-time validation failure (the hypotheses put the decoder in
a state whose accumulated frame raises a decode error) does not terminate
the streaming pipeline.  In the source the ValueError raised inside
`decodeCdf` is caught by the `except ValueError` clause of
`runlength_encode` (the error branch of `rle_loop`), so `listen` keeps
calling the step function; this theorem shows that from any such failed
state the next synchronization-gap run (a 1-run longer than `sample_rate`)
clears the accumulator and puts the frame decoder back into its not-ready
state (`ok none`), i.e. decoding resumes at the next synchronization
gap. -/
theorem c1_decode_error_not_fatal (s : Dec) (e : DErr)
    (hfail : decodeCdf s.decoded = .error e) (len : Nat)
    (hlen : s.sample_rate < len) :
    handle_runlength s.sample_rate s.decoded 1 len = ([], .ok none) := by
  simp [handle_runlength, hlen, decodeCdf]

/-- Witness for C1: the reference frame with its minute parity bit flipped
raises the minutes parity error, and from that state a sync run of 101
samples (sample rate 100) resets the pipeline. -/
theorem c1_witness :
    handle_runlength 100 badParityFrame 1 101 = ([], .ok none) :=
  c1_decode_error_not_fatal ⟨100, 0, badParityFrame, []⟩ .parityMinutes
    (by decide) 101 (by decide)

/-- C4: the bit classifier `handle_runlength`.  A 1-run strictly longer
than `sample_rate` clears the bit buffer; a 1-run of length at most
`sample_rate` (in particular exactly `sample_rate`) leaves it unchanged; a
0-run appends bit 1 exactly when its length strictly exceeds
`0.15 × sample_rate` (stated over integers as `3·sample_rate < 20·length`)
and bit 0 otherwise. -/
theorem c4_classifier (sr : Nat) (decoded : List Nat) (len : Nat) :
    (handle_runlength sr decoded 1 len).1 = (if sr < len then [] else decoded) ∧
    (handle_runlength sr decoded 0 len).1 =
      decoded ++ [if 3 * sr < 20 * len then 1 else 0] := by
  constructor
  · simp [handle_runlength, gt_iff_lt]
  · simp only [handle_runlength, rat_threshold]
    simp

/-- C7 counterexample: with the accumulator already holding the 59-bit
reference frame, a short 1-run (length 5, sample rate 100) appends nothing
and leaves the buffer at length 59 — yet a full decode attempt fires again
(the result is a record, not the not-ready `ok none`).  This refutes "no
run that leaves the buffer at length 59 without appending triggers an
additional decode attempt": decode is attempted on every run processed
while the buffer sits at 59, not exactly once per append. -/
theorem c7_counterexample :
    (handle_runlength 100 refFrame 1 5).1 = refFrame ∧
    refFrame.length = 59 ∧
    (handle_runlength 100 refFrame 1 5).2 = .ok (some refRecord) :=
  ⟨rfl, rfl, rfl⟩

/-- C7 amended: a decode attempt (any outcome other than the not-ready
`ok none` early return) fires after processing a run exactly when the bit
buffer's length after the run's effect equals 59 — on the append that
brings it to 59 and on every further run processed while it stays at 59;
once the buffer grows past 59 without a sync reset, attempts stop until
the next sync gap clears it. -/
theorem c7_amended (sr : Nat) (decoded : List Nat) (value len : Nat) :
    (handle_runlength sr decoded value len).2 ≠ .ok none ↔
      (handle_runlength sr decoded value len).1.length = 59 := by
  have h : (handle_runlength sr decoded value len).2 =
      decodeCdf (handle_runlength sr decoded value len).1 := rfl
  rw [h, decodeCdf_ne_ok_none]

/-- C3 counterexample: a frame of length 59 that passes all three parity
checks and has both timezone bits (17 and 18) set decodes successfully (to
CEST), refuting "the case where both bits are set is not a successful
decode" (and with it "exactly one must be set"). -/
theorem c3_counterexample :
    bothTzFrame.getD 17 0 = 1 ∧ bothTzFrame.getD 18 0 = 1 ∧
    decodeCdf bothTzFrame = .ok (some refRecord) :=
  ⟨rfl, rfl, rfl⟩

/-- C3 amended: bit 17 set (regardless of bit 18) gives CEST; bit 17 clear
and bit 18 set gives CET; both clear raises the ambiguous-timezone
error.  Both bits set is a successful decode, as CEST. -/
theorem c3_amended (frame : List Nat) :
    (frame.getD 17 0 ≠ 0 → parseTz frame = .ok "CEST") ∧
    (frame.getD 17 0 = 0 → frame.getD 18 0 ≠ 0 → parseTz frame = .ok "CET") ∧
    (frame.getD 17 0 = 0 → frame.getD 18 0 = 0 →
      parseTz frame = .error .tzAmbiguous) := by
  refine ⟨fun h => ?_, fun h h2 => ?_, fun h h2 => ?_⟩
  · unfold parseTz
    rw [if_pos h]
  · unfold parseTz
    rw [if_neg (not_ne_iff.mpr h), if_pos h2]
  · unfold parseTz
    rw [if_neg (not_ne_iff.mpr h), if_neg (not_ne_iff.mpr h2)]

/-- Witness for C3: the both-bits-set frame parses as CEST. -/
theorem c3_witness : parseTz bothTzFrame = .ok "CEST" :=
  (c3_amended bothTzFrame).1 (by decide)

/-- C10: `runlength_encode` ignores its `buf` parameter entirely — its
return value and state effects depend only on the decoder's internally
held `network_buf` and `start_level` (and the rest of the state), so two
calls from the same state with different arguments coincide. -/
theorem c10_buf_irrelevant (s : Dec) (buf1 buf2 : List Nat) :
    runlength_encode s buf1 = runlength_encode s buf2 := rfl

/-- C5 (code bug): the claimed consumed-count / chunking contract fails.
On the 5-sample buffer `[1,0,1,1,0]` from start level 0 the segmenter
emits the complete runs `(1,1), (0,1), (1,2)` — 4 samples — but reports 7
consumed (`toRemove += pos` accumulates absolute positions instead of run
lengths), more than the whole buffer; `listen`'s slicing then drops the
unterminated trailing run, so splitting the same samples into `[1,0,1]`
and `[1,0]` yields the run sequence `(1,1), (0,1)` then `(1,1)`, not the
one-shot sequence. -/
theorem c5_chunking_bug :
    (listen_step ⟨100, 0, [], []⟩ [1, 0, 1, 1, 0]).2 =
      [(1, 1), (0, 1), (1, 2)] ∧
    (listen_step ⟨100, 0, [], []⟩ [1, 0, 1]).2 = [(1, 1), (0, 1)] ∧
    (listen_step (listen_step ⟨100, 0, [], []⟩ [1, 0, 1]).1 [1, 0]).2 =
      [(1, 1)] ∧
    ([(1, 1), (0, 1)] ++ [(1, 1)] : List (Nat × Nat)) ≠
      [(1, 1), (0, 1), (1, 2)] ∧
    (runlength_encode ⟨100, 0, [], [1, 0, 1, 1, 0]⟩ [1, 0, 1, 1, 0]).1 = 7 ∧
    ([1, 0, 1, 1, 0] : List Nat).length = 5 :=
  ⟨rfl, rfl, rfl, by decide, rfl, rfl⟩

/-- C6 counterexample: a uniform non-empty buffer whose level equals the
carried current level does make the segmenter emit a (zero-length) run:
state `start_level = 1`, buffer `[1]` yields consumed 0 but the emitted
run `(0, 0)`, refuting "emits no runs" for every carried level. -/
theorem c6_counterexample :
    (runlength_encode ⟨100, 1, [], [1]⟩ []).1 = 0 ∧
    (runlength_encode ⟨100, 1, [], [1]⟩ []).2.2 = [(0, 0)] ∧
    ([(0, 0)] : List (Nat × Nat)) ≠ [] :=
  ⟨rfl, rfl, by decide⟩

/-- C8: for every successfully decoded frame the minute field is the
weighted sum of bits 21..27 with weights 1, 2, 4, 8, 10, 20, 40, and the
algorithm returns that sum unchanged with no range check: a frame whose
weighted sum is 85 still decodes successfully. -/
theorem c8_minutes_weighted_sum :
    (∀ (frame : List Nat) (r : TimeRecord), decodeCdf frame = .ok (some r) →
      r.minute = frame.getD 21 0 * 1 + frame.getD 22 0 * 2 +
        frame.getD 23 0 * 4 + frame.getD 24 0 * 8 + frame.getD 25 0 * 10 +
        frame.getD 26 0 * 20 + frame.getD 27 0 * 40) ∧
    (decodeCdf minute85Frame = .ok (some minute85Record) ∧
      59 < minute85Record.minute) := by
  constructor
  · intro frame r h
    obtain ⟨tz, wd, M, htz, hwd, hM, rfl⟩ := decodeCdf_ok_some h
    rfl
  · exact ⟨rfl, by decide⟩

/-- Witness for C8: the reference frame decodes and its minute field, 43,
is the weighted sum of its bits 21..27. -/
theorem c8_witness :
    refRecord.minute = refFrame.getD 21 0 * 1 + refFrame.getD 22 0 * 2 +
      refFrame.getD 23 0 * 4 + refFrame.getD 24 0 * 8 +
      refFrame.getD 25 0 * 10 + refFrame.getD 26 0 * 20 +
      refFrame.getD 27 0 * 40 :=
  c8_minutes_weighted_sum.1 refFrame refRecord rfl

/-- C9 counterexample: a frame that passes every validation step decodes
to a record whose minute field is 85, outside the claimed `[0,59]` domain
(the code range-checks only weekday and month). -/
theorem c9_counterexample :
    decodeCdf minute85Frame = .ok (some minute85Record) ∧
    ¬ minute85Record.minute ≤ 59 :=
  ⟨rfl, by decide⟩

/-- C2: on a 59-bit frame, `decodeCdf` raises the minutes parity error if
and only if the sum of bits 21..27 mod 2 differs from bit 28 (the check
runs first, so no other validation can produce or mask this error), and
flipping bit 28 of any frame that decodes successfully yields exactly the
minutes parity error — the decode aborts at the first check, before any
field is parsed. -/
theorem c2_minutes_parity_first (frame : List Nat) (h59 : frame.length = 59) :
    (decodeCdf frame = .error .parityMinutes ↔
      ((frame.drop 21).take 7).sum % 2 ≠ frame.getD 28 0) ∧
    (∀ r : TimeRecord, decodeCdf frame = .ok (some r) →
      decodeCdf (frame.set 28 (1 - frame.getD 28 0)) =
        .error .parityMinutes) := by
  constructor
  · constructor
    · intro herr
      by_contra hcond
      have hp1 : checkParity1 frame = .ok () := by
        unfold checkParity1
        rw [if_neg (not_ne_iff.mpr hcond)]
      exact decodeCdf_no_pm h59 hp1 herr
    · intro hcond
      exact decodeCdf_p1_err h59 (by unfold checkParity1; rw [if_pos hcond])
  · intro r hok
    have hp1 : checkParity1 frame = .ok () := by
      rcases hp : checkParity1 frame with e | u
      · rw [decodeCdf_p1_err h59 hp] at hok
        simp at hok
      · cases u
        rfl
    have hsum : ((frame.drop 21).take 7).sum % 2 = frame.getD 28 0 := by
      unfold checkParity1 at hp1
      split at hp1
      · simp at hp1
      · next hcnd => exact not_not.mp hcnd
    have hlen2 : (frame.set 28 (1 - frame.getD 28 0)).length = 59 := by
      rw [List.length_set]
      exact h59
    have hslice : (((frame.set 28 (1 - frame.getD 28 0)).drop 21).take 7) =
        ((frame.drop 21).take 7) :=
      take_drop_set_of_le frame 28 _ 21 7 (by omega)
    have hbit : (frame.set 28 (1 - frame.getD 28 0)).getD 28 0 =
        1 - frame.getD 28 0 :=
      getD_set_self frame 28 _ (by omega)
    have hcond2 : (((frame.set 28 (1 - frame.getD 28 0)).drop 21).take 7).sum
        % 2 ≠ (frame.set 28 (1 - frame.getD 28 0)).getD 28 0 := by
      rw [hslice, hbit]
      omega
    exact decodeCdf_p1_err hlen2
      (by unfold checkParity1; rw [if_pos hcond2])

/-- Witness for C2: flipping bit 28 of the (valid) reference frame gives
exactly the minutes parity error. -/
theorem c2_witness :
    decodeCdf (refFrame.set 28 (1 - refFrame.getD 28 0)) =
      .error .parityMinutes :=
  (c2_minutes_parity_first refFrame rfl).2 refRecord rfl

/-- C6 amended: on a non-empty uniform sample buffer the segmenter always
reports 0 consumed; it emits no runs when the uniform level differs from
the carried current level, but when the level equals the carried current
level it emits exactly one zero-length run of the opposite level (and
flips the current level) before deferring. -/
theorem c6_amended (sr sl : Nat) (dec : List Nat) (v n : Nat)
    (buf : List Nat) (hn : n ≠ 0) (hv : v ≤ 1) (hsl : sl ≤ 1) :
    (runlength_encode ⟨sr, sl, dec, List.replicate n v⟩ buf).1 = 0 ∧
    (v ≠ sl →
      (runlength_encode ⟨sr, sl, dec, List.replicate n v⟩ buf).2.2 = []) ∧
    (v = sl →
      (runlength_encode ⟨sr, sl, dec, List.replicate n v⟩ buf).2.2 =
        [(1 - sl, 0)]) := by
  interval_cases sl <;> interval_cases v
  · -- carried level 0, uniform 0s: one zero-length 1-run is emitted
    rcases hd : decodeCdf dec with e | ores <;>
      (simp only [runlength_encode, List.length_replicate]
       rw [show n + 2 = n + 1 + 1 from rfl, rle_loop_succ]
       simp [pyIndex_replicate_self n 0 hn, pyIndex_replicate_ne,
         handle_runlength, hd, rle_loop_succ, Nat.not_lt_zero])
  · -- carried level 0, uniform 1s: need more data, nothing emitted
    simp only [runlength_encode, List.length_replicate]
    rw [show n + 2 = n + 1 + 1 from rfl, rle_loop_succ]
    simp [pyIndex_replicate_ne n 1 0 (by omega)]
  · -- carried level 1, uniform 0s: need more data, nothing emitted
    simp only [runlength_encode, List.length_replicate]
    rw [show n + 2 = n + 1 + 1 from rfl, rle_loop_succ]
    simp [pyIndex_replicate_ne n 0 1 (by omega)]
  · -- carried level 1, uniform 1s: one zero-length 0-run is emitted
    have hq : ¬ ((0.15 : ℚ) * (sr : ℚ) < 0) := not_lt.mpr (by positivity)
    rcases hd : decodeCdf (dec ++ [0]) with e | ores <;>
      (simp only [runlength_encode, List.length_replicate]
       rw [show n + 2 = n + 1 + 1 from rfl, rle_loop_succ]
       simp [pyIndex_replicate_self n 1 hn, pyIndex_replicate_ne,
         handle_runlength, hd, rle_loop_succ, hq,
         Nat.not_lt_zero])

/-- Witness for C6: a uniform buffer of three 1-samples against carried
level 0 consumes nothing and emits nothing. -/
theorem c6_witness :
    (runlength_encode ⟨100, 0, [], List.replicate 3 1⟩ []).1 = 0 ∧
    (runlength_encode ⟨100, 0, [], List.replicate 3 1⟩ []).2.2 = [] :=
  ⟨(c6_amended 100 0 [] 1 3 [] (by decide) (by decide) (by decide)).1,
   (c6_amended 100 0 [] 1 3 [] (by decide) (by decide) (by decide)).2.1
     (by decide)⟩

/-- C9 amended: a successfully decoded record (from a 0/1 frame) has its
weekday among the seven names, its month among the twelve names, timezone
CET or CEST, second 0 — but the unchecked weighted-sum fields are only
bounded by their maxima: minute ≤ 85, hour ≤ 45, day ≤ 45 (day may also be
0), and year in [2000, 2165], not the claimed [0,59], [0,23], [1,31] and
[2000,2099]. -/
theorem c9_amended (frame : List Nat) (r : TimeRecord)
    (hb : ∀ b ∈ frame, b ≤ 1) (hok : decodeCdf frame = .ok (some r)) :
    r.wd ∈ ["Mon", "Tue", "Wed", "Thu", "Fri", "Sat", "Sun"] ∧
    r.month ∈ ["Jan", "Feb", "Mar", "Apr", "May", "Jun",
      "Jul", "Aug", "Sep", "Oct", "Nov", "Dec"] ∧
    (r.tz = "CET" ∨ r.tz = "CEST") ∧
    r.second = 0 ∧ r.minute ≤ 85 ∧ r.hour ≤ 45 ∧ r.day ≤ 45 ∧
    2000 ≤ r.year ∧ r.year ≤ 2165 := by
  obtain ⟨tz, wd, M, htz, hwd, hM, rfl⟩ := decodeCdf_ok_some hok
  have hg : ∀ i, frame.getD i 0 ≤ 1 := getD_le_one hb
  refine ⟨?_, ?_, ?_, rfl, ?_, ?_, ?_, ?_, ?_⟩
  · simp only [parseDayOfWeek] at hwd
    split at hwd
    · simp at hwd
    · next hcnd =>
      push_neg at hcnd
      simp only [Except.ok.injEq] at hwd
      exact hwd ▸ mem_day_names _ hcnd.1 hcnd.2
  · simp only [parseMonth] at hM
    split at hM
    · simp at hM
    · next hcnd =>
      push_neg at hcnd
      simp only [Except.ok.injEq] at hM
      exact hM ▸ mem_month_names _ hcnd.1 hcnd.2
  · unfold parseTz at htz
    split at htz
    · simp only [Except.ok.injEq] at htz
      right
      exact htz.symm
    · split at htz
      · simp only [Except.ok.injEq] at htz
        left
        exact htz.symm
      · simp at htz
  · have h21 := hg 21
    have h22 := hg 22
    have h23 := hg 23
    have h24 := hg 24
    have h25 := hg 25
    have h26 := hg 26
    have h27 := hg 27
    show parseMinutes frame ≤ 85
    unfold parseMinutes
    omega
  · have h29 := hg 29
    have h30 := hg 30
    have h31 := hg 31
    have h32 := hg 32
    have h33 := hg 33
    have h34 := hg 34
    show parseHours frame ≤ 45
    unfold parseHours
    omega
  · have h36 := hg 36
    have h37 := hg 37
    have h38 := hg 38
    have h39 := hg 39
    have h40 := hg 40
    have h41 := hg 41
    show parseDayOfMonth frame ≤ 45
    unfold parseDayOfMonth
    omega
  · show 2000 ≤ parseYear frame
    unfold parseYear
    omega
  · have h50 := hg 50
    have h51 := hg 51
    have h52 := hg 52
    have h53 := hg 53
    have h54 := hg 54
    have h55 := hg 55
    have h56 := hg 56
    have h57 := hg 57
    show parseYear frame ≤ 2165
    unfold parseYear
    omega

/-- Witness for C9: the reference frame's record satisfies the amended
bounds. -/
theorem c9_witness :
    refRecord.wd ∈ ["Mon", "Tue", "Wed", "Thu", "Fri", "Sat", "Sun"] ∧
    refRecord.month ∈ ["Jan", "Feb", "Mar", "Apr", "May", "Jun",
      "Jul", "Aug", "Sep", "Oct", "Nov", "Dec"] ∧
    (refRecord.tz = "CET" ∨ refRecord.tz = "CEST") ∧
    refRecord.second = 0 ∧ refRecord.minute ≤ 85 ∧ refRecord.hour ≤ 45 ∧
    refRecord.day ≤ 45 ∧ 2000 ≤ refRecord.year ∧ refRecord.year ≤ 2165 :=
  c9_amended refFrame refRecord (by decide) rfl

end DCF77
